import Mathlib

/-!
Verification of the diagnostic-output parser and result-aggregation model of
`net_troubleshooter.py`.

The embedding works at the character level: Python strings become `List Char`,
the two `re.search` calls of `ping_host` and its two fallback patterns become
explicit matcher functions with Python's leftmost / lazy-shortest semantics,
Python `int`/`float` on captured substrings become `Option`-valued
conversions, and the places where an uncaught conversion error would escape
`ping_host` are marked by `Except`.  Python floats are modelled as exact
rationals (no binary rounding); the regex classes `\d`, `\s`, `\w` are taken
in their ASCII ranges, matching the ASCII tool output the program consumes.
The external process boundary (`run_subprocess`) is out of scope and enters
`ping_host` as the pair `(ok, out)` it returns.
-/

namespace NetTroubleshooter

/-- Python regex class `\d` (ASCII range). -/
def isPyDigit (c : Char) : Bool := '0' ≤ c && c ≤ '9'

/-- Python regex class `\s` (ASCII range: space, tab, newline, return,
vertical tab, form feed). -/
def isPySpace (c : Char) : Bool :=
  c = ' ' || c = '\t' || c = '\n' || c = '\r' || c = Char.ofNat 11 || c = Char.ofNat 12

/-- Python regex class `\w` (ASCII range). -/
def isPyWord (c : Char) : Bool :=
  isPyDigit c || ('a' ≤ c && c ≤ 'z') || ('A' ≤ c && c ≤ 'Z') || c = '_'

/-- The class `[\w/]` of the rtt pattern (line 47). -/
def isWordSlash (c : Char) : Bool := isPyWord c || c = '/'

/-- The class `[\d\.]` of the rtt pattern (line 47). -/
def isDigitDot (c : Char) : Bool := isPyDigit c || c = '.'

/-- Match a literal piece of a pattern (no metacharacters); returns the rest
of the text on success. -/
def matchLit : List Char → List Char → Option (List Char)
  | [], rest => some rest
  | _ :: _, [] => none
  | a :: as, b :: bs => if b = a then matchLit as bs else none

/-- Greedy `X+` on a character class: the nonempty maximal run and the rest.
In every pattern of the source the class run is followed by a character that
is not in the class, so maximal munch coincides with the backtracking
semantics of Python `re`. -/
def plus1 (p : Char → Bool) (l : List Char) : Option (List Char × List Char) :=
  if (l.takeWhile p).isEmpty then none else some (l.takeWhile p, l.dropWhile p)

/-- Scan in `re.search` style, which is also the lazy `.*?` under `re.S` (a
skipped character may be a newline): try the continuation at each position,
earliest first — Python's leftmost / lazy-shortest priority. -/
def searchSeg {α : Type} (seg : List Char → Option α) : List Char → Option α
  | [] => seg []
  | c :: tl =>
    match seg (c :: tl) with
    | some a => some a
    | none => searchSeg seg tl

/-- Tail `([0-9]+)%\s+packet loss` of the Unix summary pattern (line 35). -/
def unixSeg3 (l : List Char) : Option (List Char) :=
  (plus1 isPyDigit l).bind fun p1 =>
  (matchLit "%".data p1.2).bind fun r1 =>
  (plus1 isPySpace r1).bind fun p2 =>
  (matchLit "packet loss".data p2.2).bind fun _ =>
  some p1.1

/-- Middle `(\d+)\s+received.*?` of the Unix summary pattern (line 35),
chained into its tail. -/
def unixSeg2 (l : List Char) : Option (List Char × List Char) :=
  (plus1 isPyDigit l).bind fun p1 =>
  (plus1 isPySpace p1.2).bind fun p2 =>
  (matchLit "received".data p2.2).bind fun r1 =>
  (searchSeg unixSeg3 r1).bind fun g3 =>
  some (p1.1, g3)

/-- Head `(\d+)\s+packets transmitted.*?` of the Unix summary pattern
(line 35), chained into the rest of the pattern. -/
def unixSeg1 (l : List Char) : Option (List Char × List Char × List Char) :=
  (plus1 isPyDigit l).bind fun p1 =>
  (plus1 isPySpace p1.2).bind fun p2 =>
  (matchLit "packets transmitted".data p2.2).bind fun r1 =>
  (searchSeg unixSeg2 r1).bind fun g23 =>
  some (p1.1, g23.1, g23.2)

/-- Line 35: `re.search(r"(\d+)\s+packets transmitted.*?(\d+)\s+received.*?`
`([0-9]+)%\s+packet loss", text, re.S)`, returning the three captures.
Note the flags: `re.S` only — the literal words are case-sensitive. -/
def unixSearch (text : List Char) : Option (List Char × List Char × List Char) :=
  searchSeg unixSeg1 text

/-- Line 40: the Windows counters pattern
`Sent = (\d+), Received = (\d+), Lost = (\d+)` at one position. -/
def winSeg (l : List Char) : Option (List Char × List Char × List Char) :=
  (matchLit "Sent = ".data l).bind fun r1 =>
  (plus1 isPyDigit r1).bind fun p1 =>
  (matchLit ", Received = ".data p1.2).bind fun r2 =>
  (plus1 isPyDigit r2).bind fun p2 =>
  (matchLit ", Lost = ".data p2.2).bind fun r3 =>
  (plus1 isPyDigit r3).bind fun p3 =>
  some (p1.1, p2.1, p3.1)

/-- Line 40: `re.search(r"Sent = (\d+), Received = (\d+), Lost = (\d+)", text)`. -/
def winSearch (text : List Char) : Option (List Char × List Char × List Char) :=
  searchSeg winSeg text

/-- Line 47: the Unix rtt pattern
`rtt [\w/]+ = [\d\.]+/([\d\.]+)/[\d\.]+/[\d\.]+ ms` at one position,
returning the capture (the average field). -/
def rttSeg (l : List Char) : Option (List Char) :=
  (matchLit "rtt ".data l).bind fun r1 =>
  (plus1 isWordSlash r1).bind fun p1 =>
  (matchLit " = ".data p1.2).bind fun r2 =>
  (plus1 isDigitDot r2).bind fun p2 =>
  (matchLit "/".data p2.2).bind fun r3 =>
  (plus1 isDigitDot r3).bind fun p3 =>
  (matchLit "/".data p3.2).bind fun r4 =>
  (plus1 isDigitDot r4).bind fun p4 =>
  (matchLit "/".data p4.2).bind fun r5 =>
  (plus1 isDigitDot r5).bind fun p5 =>
  (matchLit " ms".data p5.2).bind fun _ =>
  some p3.1

/-- Line 47: `re.search` of the Unix rtt pattern over the whole text. -/
def rttSearch (text : List Char) : Option (List Char) :=
  searchSeg rttSeg text

/-- Line 54: the Windows pattern `Average = (\d+)ms` at one position. -/
def avgSeg (l : List Char) : Option (List Char) :=
  (matchLit "Average = ".data l).bind fun r1 =>
  (plus1 isPyDigit r1).bind fun p1 =>
  (matchLit "ms".data p1.2).bind fun _ =>
  some p1.1

/-- Line 54: `re.search(r"Average = (\d+)ms", text)`. -/
def avgSearch (text : List Char) : Option (List Char) :=
  searchSeg avgSeg text

/-- ASCII lowering, as `str.lower()` acts on the ASCII output considered. -/
def lowerChar (c : Char) : Char :=
  if 'A' ≤ c && c ≤ 'Z' then Char.ofNat (c.toNat + 32) else c

/-- Lowered text, `text.lower()` (line 63). -/
def lowerChars (l : List Char) : List Char := l.map lowerChar

/-- Whether `pat` is a leading piece of `l`. -/
def hasLitAt : List Char → List Char → Bool
  | [], _ => true
  | _ :: _, [] => false
  | a :: as, b :: bs => a = b && hasLitAt as bs

/-- Python substring containment `pat in l`. -/
def containsSeq (pat : List Char) : List Char → Bool
  | [] => hasLitAt pat []
  | c :: tl => hasLitAt pat (c :: tl) || containsSeq pat tl

/-- Line 63: `"ttl=" in text.lower()`. -/
def ttlIn (text : List Char) : Bool := containsSeq "ttl=".data (lowerChars text)

/-- Numeric value of a digit string — what Python `int` returns on the
`\d+` captures (leading zeros included). -/
def digitsVal (l : List Char) : Nat := l.foldl (fun a c => a * 10 + (c.toNat - 48)) 0

/-- Python `int(s)`, modelled on the digit-run captures the source applies it
to: defined (`some`) exactly on nonempty all-digit strings. -/
def pyInt (l : List Char) : Option Nat :=
  if l ≠ [] ∧ l.all isPyDigit = true then some (digitsVal l) else none

/-- Python `float(s)` on strings drawn from the classes `\d+` and `[\d\.]+`,
as an exact rational: defined exactly when the string has at most one dot and
at least one digit (so `float("1.2.3")` and `float(".")` fail, as in Python). -/
def pyFloat (l : List Char) : Option ℚ :=
  if (l.takeWhile (fun c => c != '.')).all isPyDigit then
    match l.dropWhile (fun c => c != '.') with
    | [] =>
      if (l.takeWhile (fun c => c != '.')).isEmpty then none
      else some ((digitsVal (l.takeWhile (fun c => c != '.')) : ℚ))
    | _ :: fp =>
      if fp.all isPyDigit = true ∧ ((l.takeWhile (fun c => c != '.')) ≠ [] ∨ fp ≠ []) then
        some ((digitsVal (l.takeWhile (fun c => c != '.')) : ℚ) +
          (digitsVal fp : ℚ) / (10 : ℚ) ^ fp.length)
      else none
  else none

/-- The structured part of the result dict built by `ping_host` (line 28). -/
structure PingFields where
  success : Bool
  raw : List Char
  sent : Option Nat
  received : Option Nat
  loss_pct : Option ℚ
  avg_rtt_ms : Option ℚ
deriving Repr, DecidableEq

/-- Lines 34–44: the packet-counter parse — the Unix summary pattern first,
else the Windows counters with the loss derived as `(lost / sent) * 100`
(guarded to `None` when `sent` is `0`).  `.error` marks where an uncaught
`int`/`float` conversion error would escape `ping_host` (lines 37 and 42 are
not under any `try`). -/
def countersOf (text : List Char) : Except Unit (Option (Nat × Nat × Option ℚ)) :=
  match unixSearch text with
  | some (g1, g2, g3) =>
    match pyInt g1, pyInt g2, pyFloat g3 with
    | some s, some r, some l => .ok (some (s, r, some l))
    | _, _, _ => .error ()
  | none =>
    match winSearch text with
    | some (g1, g2, g3) =>
      match pyInt g1, pyInt g2, pyInt g3 with
      | some s, some r, some lost =>
        .ok (some (s, r, if s = 0 then none else some ((lost : ℚ) / (s : ℚ) * 100)))
      | _, _, _ => .error ()
    | none => .ok none

/-- Lines 46–59: the average-rtt parse.  Conversion failures are swallowed by
the source `try/except`, and a matched Unix rtt line shadows the Windows
`Average` fallback even when its conversion fails (the `else` at line 53). -/
def avgOf (text : List Char) : Option ℚ :=
  match rttSearch text with
  | some g => pyFloat g
  | none =>
    match avgSearch text with
    | some g => pyFloat g
    | none => none

/-- Lines 32–66: the parsing part of `ping_host` applied to the captured
process output, including the success flag of lines 61–64. -/
def ping_parse (text : List Char) : Except Unit PingFields :=
  match countersOf text with
  | .error e => .error e
  | .ok none =>
    .ok { success := ttlIn text, raw := text, sent := none, received := none,
          loss_pct := none, avg_rtt_ms := avgOf text }
  | .ok (some (s, r, l)) =>
    .ok { success := decide (0 < r) || ttlIn text, raw := text, sent := some s,
          received := some r, loss_pct := l, avg_rtt_ms := avgOf text }

/-- Lines 22–25: the platform flag selects only the external ping command
line; the parsing is shared by both platforms. -/
def pingCmd (isWindows : Bool) (host : String) (count : Nat) : List String :=
  if isWindows then ["ping", host, "-n", toString count]
  else ["ping", "-c", toString count, host]

/-- Function `ping_host` (lines 21–66) with the external process boundary passed in as
the pair `(ok, out)` returned by `run_subprocess`; `isWindows` is the platform
hint, which only selects `pingCmd` (the command is run externally) and does
not influence the parsing.  Lines 28–30: on a launch failure (`ok = false`)
the initial all-unset result is returned at once, before any pattern is
tried. -/
def ping_host (isWindows : Bool) (ok : Bool) (out : List Char) : Except Unit PingFields :=
  if ok then ping_parse out
  else .ok { success := false, raw := out, sent := none, received := none,
             loss_pct := none, avg_rtt_ms := none }

/-- One TCP probe result as serialized (from `check_tcp_port`, lines 77–85):
the fields `save_results_csv` reads. -/
structure PortProbe where
  port : Nat
  portOpen : Bool
  rtt_ms : ℚ
deriving Repr, DecidableEq

/-- One aggregate record as built by `run_diagnostics` (lines 109–116),
restricted to the fields `save_results_csv` reads. -/
structure DiagRecord where
  timestamp : String
  host : String
  dns_ip : Option String
  dns_ok : Bool
  ping : PingFields
  traceroute_raw : List Char
  ports : List PortProbe
deriving Repr, DecidableEq

/-- One flat CSV row (lines 123–140): the port columns are `none` (left
empty by `csv.DictWriter`) on the base row of a record with no ports. -/
structure CsvRow where
  timestamp : String
  host : String
  dns_ip : Option String
  dns_ok : Bool
  ping_sent : Option Nat
  ping_recv : Option Nat
  ping_loss_pct : Option ℚ
  ping_avg_rtt_ms : Option ℚ
  port : Option Nat
  port_open : Option Bool
  port_rtt_ms : Option ℚ
  traceroute_snippet : List Char
deriving Repr, DecidableEq

/-- Lines 123–133: the `base` dict of one record. -/
def baseRow (r : DiagRecord) : CsvRow :=
  { timestamp := r.timestamp, host := r.host, dns_ip := r.dns_ip, dns_ok := r.dns_ok,
    ping_sent := r.ping.sent, ping_recv := r.ping.received,
    ping_loss_pct := r.ping.loss_pct, ping_avg_rtt_ms := r.ping.avg_rtt_ms,
    port := none, port_open := none, port_rtt_ms := none,
    traceroute_snippet := r.traceroute_raw }

/-- Lines 134–140: `if r["ports"]:` one row per port, each a copy of `base`
updated with that port's columns; else the single `base` row. -/
def rowsOfRecord (r : DiagRecord) : List CsvRow :=
  match r.ports with
  | [] => [baseRow r]
  | ps => ps.map fun p =>
      { baseRow r with port := some p.port, port_open := some p.portOpen,
                       port_rtt_ms := some p.rtt_ms }

/-- Lines 121–140: the row-building part of `save_results_csv` (the file
writing itself is an external boundary). -/
def csv_rows (rs : List DiagRecord) : List CsvRow := rs.flatMap rowsOfRecord

/-- The non-port columns of a row, for stating that the fan-out rows of one
record agree outside the port columns. -/
def nonPortPart (row : CsvRow) :
    String × String × Option String × Bool × Option Nat × Option Nat ×
      Option ℚ × Option ℚ × List Char :=
  (row.timestamp, row.host, row.dns_ip, row.dns_ok, row.ping_sent, row.ping_recv,
   row.ping_loss_pct, row.ping_avg_rtt_ms, row.traceroute_snippet)

/-- The truncation marker appended at line 114. -/
def truncMarker : List Char := "...[truncated]".data

/-- Line 114: `tr["raw"][:400] + ("...[truncated]" if len(tr["raw"]) > 400 else "")`. -/
def truncTrace (raw : List Char) : List Char :=
  raw.take 400 ++ (if 400 < raw.length then truncMarker else [])

/-- The `while time.time() - start < duration:` loop of `monitor_hosts`
(lines 152–158): `elapsed` lists the successive values of
`time.time() - start` observed at the loop condition (nonnegative and
nondecreasing in a real run; `interval` and the cycle cost only shape the
later entries).  The body — one full diagnostic-and-serialize cycle — runs
once per check that passes, and the loop stops at the first check that
fails, so the number of cycles is the length of the longest prefix of
passing checks. -/
def monitor_cycles (elapsed : List ℚ) (duration : ℚ) : Nat :=
  (elapsed.takeWhile (fun e => decide (e < duration))).length

/-- A successful Unix `ping` transcript whose summary and rtt lines are the
ones of the claims. -/
def unixExample : String := "PING example.com (93.184.216.34) 56(84) bytes of data.\n64 bytes from 93.184.216.34: icmp_seq=1 ttl=56 time=12.3 ms\n\n--- example.com ping statistics ---\n4 packets transmitted, 4 received, 0% packet loss, time 3004ms\nrtt min/avg/max/mdev = 10.1/12.3/15.0/1.2 ms\n"

/-- The Windows-style counters input of the claims. -/
def winExample : String := "Sent = 4, Received = 2, Lost = 2 (50% loss)"

/-- The reply line of the claims: no recognizable summary, but a `TTL=`
marker. -/
def replyText : String := "Reply from 10.0.0.1: bytes=32 time=5ms TTL=64"

/-- A text whose counters parse with zero received while a `ttl=` marker is
still present in the raw text. -/
def ce4Text : String := "4 packets transmitted, 0 received, 100% packet loss\nstale reply: ttl=64\n"

/-- A summary with junk and line breaks between the components of the Unix
pattern. -/
def mixedUnix : String := "PING x\n9 packets transmitted, with 2 errors\nand then 7 received, later\n12% packet loss noted\n"

/-- Variant of `mixedUnix` with the letters of the summary words uppercased. -/
def upperMixed : String := "PING x\n9 PACKETS TRANSMITTED, with 2 errors\nand then 7 RECEIVED, later\n12% PACKET LOSS noted\n"

/-- A minimal Unix summary line. -/
def lowerUnix : String := "4 packets transmitted, 4 received, 0% packet loss"

/-- Variant of `lowerUnix` with every letter uppercased. -/
def upperUnix : String := "4 PACKETS TRANSMITTED, 4 RECEIVED, 0% PACKET LOSS"

/-- Windows-style counters whose `Lost` capture is not `Sent - Received`. -/
def text9 : String := "Sent = 4, Received = 2, Lost = 1"

/-- A launch-failure message from `run_subprocess` (line 19) that happens to
contain the `ttl=` marker. -/
def errText : String := "Error running ping example.com: no route, last ttl=64"

/-- A record with two requested ports, used to instantiate the serializer
fan-out. -/
def recTwoPorts : DiagRecord :=
  { timestamp := "2026-10-12T00:00:00+00:00", host := "example.com",
    dns_ip := some "93.184.216.34", dns_ok := true,
    ping := { success := true, raw := [], sent := some 4, received := some 4,
              loss_pct := some 0, avg_rtt_ms := none },
    traceroute_raw := "1 gateway 1 ms".data,
    ports := [{ port := 22, portOpen := true, rtt_ms := 15 },
              { port := 443, portOpen := false, rtt_ms := 2000 }] }

/-- Record `recTwoPorts` with no requested ports. -/
def recNoPorts : DiagRecord := { recTwoPorts with ports := [] }

/-- The first fan-out row of `recTwoPorts`. -/
def row22 : CsvRow :=
  { baseRow recTwoPorts with port := some 22, port_open := some true, port_rtt_ms := some 15 }

/-- Nonempty all-digit capture, the shape every `\d+` / `[0-9]+` group has. -/
def goodDigits (g : List Char) : Prop := g ≠ [] ∧ g.all isPyDigit = true

theorem plus1_sound {p : Char → Bool} {l g r : List Char}
    (h : plus1 p l = some (g, r)) : g ≠ [] ∧ g.all p = true := by
  unfold plus1 at h
  split at h
  · exact absurd h (by simp)
  next hne =>
    rw [Option.some.injEq, Prod.mk.injEq] at h
    obtain ⟨hg, -⟩ := h
    subst hg
    refine ⟨fun hnil => hne ?_, ?_⟩
    · rw [hnil]; rfl
    · exact List.all_eq_true.2 fun x hx => List.mem_takeWhile_imp hx

theorem searchSeg_some {α : Type} {seg : List Char → Option α} :
    ∀ {l : List Char} {a : α}, searchSeg seg l = some a → ∃ l2, seg l2 = some a := by
  intro l
  induction l with
  | nil => intro a h; exact ⟨[], h⟩
  | cons c tl ih =>
    intro a h
    rw [searchSeg] at h
    cases hs : seg (c :: tl) with
    | some b => rw [hs] at h; exact ⟨c :: tl, hs.trans h⟩
    | none => rw [hs] at h; exact ih h

theorem searchSeg_isSome_of_seg {α : Type} {seg : List Char → Option α}
    {l : List Char} {a : α} (h : seg l = some a) :
    (searchSeg seg l).isSome = true := by
  match l with
  | [] => rw [searchSeg, h]; rfl
  | c :: tl => rw [searchSeg, h]; rfl

theorem searchSeg_isSome_append {α : Type} {seg : List Char → Option α}
    {core : List Char} {a : α} (h : seg core = some a) :
    ∀ pre : List Char, (searchSeg seg (pre ++ core)).isSome = true := by
  intro pre
  induction pre with
  | nil => rw [List.nil_append]; exact searchSeg_isSome_of_seg h
  | cons p ps ih =>
    rw [List.cons_append, searchSeg]
    cases hq : seg (p :: (ps ++ core)) with
    | some b => rfl
    | none => simpa using ih

theorem unixSeg3_digits {l g : List Char} (h : unixSeg3 l = some g) : goodDigits g := by
  unfold unixSeg3 at h
  rw [Option.bind_eq_some] at h; obtain ⟨p1, hp1, h⟩ := h
  rw [Option.bind_eq_some] at h; obtain ⟨r1, -, h⟩ := h
  rw [Option.bind_eq_some] at h; obtain ⟨p2, -, h⟩ := h
  rw [Option.bind_eq_some] at h; obtain ⟨r2, -, h⟩ := h
  cases h
  exact plus1_sound hp1

theorem unixSeg2_digits {l : List Char} {g : List Char × List Char}
    (h : unixSeg2 l = some g) : goodDigits g.1 ∧ goodDigits g.2 := by
  unfold unixSeg2 at h
  rw [Option.bind_eq_some] at h; obtain ⟨p1, hp1, h⟩ := h
  rw [Option.bind_eq_some] at h; obtain ⟨p2, -, h⟩ := h
  rw [Option.bind_eq_some] at h; obtain ⟨r1, -, h⟩ := h
  rw [Option.bind_eq_some] at h; obtain ⟨g3, hg3, h⟩ := h
  cases h
  obtain ⟨l2, hl2⟩ := searchSeg_some hg3
  exact ⟨plus1_sound hp1, unixSeg3_digits hl2⟩

theorem unixSeg1_digits {l : List Char} {g : List Char × List Char × List Char}
    (h : unixSeg1 l = some g) : goodDigits g.1 ∧ goodDigits g.2.1 ∧ goodDigits g.2.2 := by
  unfold unixSeg1 at h
  rw [Option.bind_eq_some] at h; obtain ⟨p1, hp1, h⟩ := h
  rw [Option.bind_eq_some] at h; obtain ⟨p2, -, h⟩ := h
  rw [Option.bind_eq_some] at h; obtain ⟨r1, -, h⟩ := h
  rw [Option.bind_eq_some] at h; obtain ⟨g23, hg23, h⟩ := h
  cases h
  obtain ⟨l2, hl2⟩ := searchSeg_some hg23
  obtain ⟨h2, h3⟩ := unixSeg2_digits hl2
  exact ⟨plus1_sound hp1, h2, h3⟩

theorem unixSearch_digits {text : List Char} {g : List Char × List Char × List Char}
    (h : unixSearch text = some g) :
    goodDigits g.1 ∧ goodDigits g.2.1 ∧ goodDigits g.2.2 := by
  obtain ⟨l2, hl2⟩ := searchSeg_some h
  exact unixSeg1_digits hl2

theorem winSeg_digits {l : List Char} {g : List Char × List Char × List Char}
    (h : winSeg l = some g) : goodDigits g.1 ∧ goodDigits g.2.1 ∧ goodDigits g.2.2 := by
  unfold winSeg at h
  rw [Option.bind_eq_some] at h; obtain ⟨r1, -, h⟩ := h
  rw [Option.bind_eq_some] at h; obtain ⟨p1, hp1, h⟩ := h
  rw [Option.bind_eq_some] at h; obtain ⟨r2, -, h⟩ := h
  rw [Option.bind_eq_some] at h; obtain ⟨p2, hp2, h⟩ := h
  rw [Option.bind_eq_some] at h; obtain ⟨r3, -, h⟩ := h
  rw [Option.bind_eq_some] at h; obtain ⟨p3, hp3, h⟩ := h
  cases h
  exact ⟨plus1_sound hp1, plus1_sound hp2, plus1_sound hp3⟩

theorem winSearch_digits {text : List Char} {g : List Char × List Char × List Char}
    (h : winSearch text = some g) :
    goodDigits g.1 ∧ goodDigits g.2.1 ∧ goodDigits g.2.2 := by
  obtain ⟨l2, hl2⟩ := searchSeg_some h
  exact winSeg_digits hl2

theorem pyInt_of_digits {g : List Char} (h : goodDigits g) :
    pyInt g = some (digitsVal g) := by
  unfold pyInt
  rw [if_pos (And.intro h.1 h.2)]

theorem digit_ne_dot {c : Char} (h : isPyDigit c = true) : (c != '.') = true := by
  have hne : c ≠ '.' := by
    rintro rfl
    exact absurd h (by decide)
  simpa [bne_iff_ne] using hne

theorem pyFloat_of_digits {g : List Char} (hg : goodDigits g) :
    pyFloat g = some ((digitsVal g : ℚ)) := by
  have ht : g.takeWhile (fun c => c != '.') = g :=
    List.takeWhile_eq_self_iff.2 fun c hc =>
      digit_ne_dot (List.all_eq_true.1 hg.2 c hc)
  have hd : g.dropWhile (fun c => c != '.') = [] :=
    List.dropWhile_eq_nil_iff.2 fun c hc =>
      digit_ne_dot (List.all_eq_true.1 hg.2 c hc)
  unfold pyFloat
  rw [ht, hd, if_pos hg.2]
  rw [if_neg]
  simp only [List.isEmpty_iff]
  exact hg.1

theorem countersOf_unix {text g1 g2 g3 : List Char}
    (h : unixSearch text = some (g1, g2, g3)) :
    countersOf text = .ok (some (digitsVal g1, digitsVal g2, some ((digitsVal g3 : ℚ)))) := by
  obtain ⟨d1, d2, d3⟩ := unixSearch_digits h
  simp only [countersOf, h, pyInt_of_digits d1, pyInt_of_digits d2, pyFloat_of_digits d3]

theorem countersOf_win {text g1 g2 g3 : List Char}
    (hu : unixSearch text = none) (hw : winSearch text = some (g1, g2, g3)) :
    countersOf text = .ok (some (digitsVal g1, digitsVal g2,
      if digitsVal g1 = 0 then none
      else some ((digitsVal g3 : ℚ) / (digitsVal g1 : ℚ) * 100))) := by
  obtain ⟨d1, d2, d3⟩ := winSearch_digits hw
  simp only [countersOf, hu, hw, pyInt_of_digits d1, pyInt_of_digits d2, pyInt_of_digits d3]

theorem countersOf_nomatch {text : List Char}
    (hu : unixSearch text = none) (hw : winSearch text = none) :
    countersOf text = .ok none := by
  simp only [countersOf, hu, hw]

theorem countersOf_ok (text : List Char) : ∃ o, countersOf text = .ok o := by
  cases hu : unixSearch text with
  | some g =>
    obtain ⟨g1, g2, g3⟩ := g
    exact ⟨_, countersOf_unix hu⟩
  | none =>
    cases hw : winSearch text with
    | some g =>
      obtain ⟨g1, g2, g3⟩ := g
      exact ⟨_, countersOf_win hu hw⟩
    | none => exact ⟨none, countersOf_nomatch hu hw⟩

theorem ping_parse_of_counters_some {text : List Char} {s r : Nat} {l : Option ℚ}
    (h : countersOf text = .ok (some (s, r, l))) :
    ping_parse text = .ok
      { success := decide (0 < r) || ttlIn text, raw := text, sent := some s,
        received := some r, loss_pct := l, avg_rtt_ms := avgOf text } := by
  simp only [ping_parse, h]

theorem ping_parse_of_counters_none {text : List Char}
    (h : countersOf text = .ok none) :
    ping_parse text = .ok
      { success := ttlIn text, raw := text, sent := none, received := none,
        loss_pct := none, avg_rtt_ms := avgOf text } := by
  simp only [ping_parse, h]

theorem ping_parse_total (text : List Char) : ∃ r, ping_parse text = .ok r := by
  obtain ⟨o, ho⟩ := countersOf_ok text
  cases o with
  | none => exact ⟨_, ping_parse_of_counters_none ho⟩
  | some c =>
    obtain ⟨s, r, l⟩ := c
    exact ⟨_, ping_parse_of_counters_some ho⟩

/-- C1: for every input text (including empty or arbitrary garbled text) and
every platform hint, the ping-output parsing in `ping_host` is total: no
uncaught error is possible (every capture of a numeric group is a nonempty
digit run, so every `int`/`float` conversion succeeds), and for completely
empty input the result has `sent`, `received`, `loss_pct` and `avg_rtt_ms`
all unset and `success = false`. -/
theorem C1_ping_host_total :
    (∀ (isWindows ok : Bool) (out : List Char), ∃ r, ping_host isWindows ok out = .ok r) ∧
    (∀ isWindows : Bool, ping_host isWindows true [] = .ok
      { success := false, raw := [], sent := none, received := none,
        loss_pct := none, avg_rtt_ms := none }) := by
  constructor
  · intro isWindows ok out
    cases ok with
    | false => exact ⟨_, rfl⟩
    | true =>
      obtain ⟨r, hr⟩ := ping_parse_total out
      exact ⟨r, by simpa [ping_host] using hr⟩
  · intro isWindows
    rfl

/-- C2: for every ping text matching the Unix summary pattern, parsing
extracts sent, received and loss exactly as captured by the pattern's
numeric groups; on the concrete transcript containing
`4 packets transmitted, 4 received, 0% packet loss` and
`rtt min/avg/max/mdev = 10.1/12.3/15.0/1.2 ms` the result is sent 4,
received 4, loss 0, average rtt 12.3 and success true. -/
theorem C2_unix_extraction :
    (∀ (text g1 g2 g3 : List Char), unixSearch text = some (g1, g2, g3) →
      ∃ r, ping_parse text = .ok r ∧ r.sent = some (digitsVal g1) ∧
        r.received = some (digitsVal g2) ∧ r.loss_pct = some ((digitsVal g3 : ℚ))) ∧
    ping_parse unixExample.data = .ok
      { success := true, raw := unixExample.data, sent := some 4, received := some 4,
        loss_pct := some 0, avg_rtt_ms := some (123 / 10) } := by
  constructor
  · intro text g1 g2 g3 h
    exact ⟨_, ping_parse_of_counters_some (countersOf_unix h), rfl, rfl, rfl⟩
  · have hu : unixSearch unixExample.data = some ("4".data, "4".data, "0".data) := by decide
    have hr : rttSearch unixExample.data = some ("12.3".data) := by decide
    have h1 : pyInt "4".data = some 4 := by decide
    have h3 : pyFloat "0".data = some ((0 : ℚ)) := by
      show some ((digitsVal "0".data : ℚ)) = some ((0 : ℚ))
      have e : digitsVal "0".data = 0 := by decide
      rw [e]; norm_num
    have h4 : pyFloat "12.3".data = some (123 / 10) := by
      show some ((digitsVal "12".data : ℚ) +
        (digitsVal "3".data : ℚ) / (10 : ℚ) ^ ("3".data).length) = some (123 / 10)
      have e1 : digitsVal "12".data = 12 := by decide
      have e2 : digitsVal "3".data = 3 := by decide
      rw [e1, e2]; norm_num
    have ht : ttlIn unixExample.data = true := by decide
    simp [ping_parse, countersOf, avgOf, hu, hr, h1, h3, h4, ht]

/-- Witness for C2: the general extraction applied to the concrete Unix
transcript, with the pattern-match hypothesis evaluated by decide. -/
theorem C2_unix_extraction_witness :
    ∃ r, ping_parse unixExample.data = .ok r ∧ r.sent = some (digitsVal "4".data) ∧
      r.received = some (digitsVal "4".data) ∧
      r.loss_pct = some ((digitsVal "0".data : ℚ)) :=
  C2_unix_extraction.1 unixExample.data "4".data "4".data "0".data (by decide)

/-- C3: when the Unix counter pattern is absent and the Windows pattern
matches, the loss percent is derived as lost / sent * 100 and left unset
when sent is 0; the concrete input `Sent = 4, Received = 2, Lost = 2
(50% loss)` yields derived loss 50 and success true. -/
theorem C3_win_derived_loss :
    (∀ (text g1 g2 g3 : List Char), unixSearch text = none →
      winSearch text = some (g1, g2, g3) →
      ∃ r, ping_parse text = .ok r ∧ r.sent = some (digitsVal g1) ∧
        r.received = some (digitsVal g2) ∧
        r.loss_pct = (if digitsVal g1 = 0 then none
          else some ((digitsVal g3 : ℚ) / (digitsVal g1 : ℚ) * 100))) ∧
    ping_parse winExample.data = .ok
      { success := true, raw := winExample.data, sent := some 4, received := some 2,
        loss_pct := some 50, avg_rtt_ms := none } := by
  constructor
  · intro text g1 g2 g3 hu hw
    exact ⟨_, ping_parse_of_counters_some (countersOf_win hu hw), rfl, rfl, rfl⟩
  · have hu : unixSearch winExample.data = none := by decide
    have hw : winSearch winExample.data = some ("4".data, "2".data, "2".data) := by decide
    rw [ping_parse_of_counters_some (countersOf_win hu hw)]
    have e4 : digitsVal "4".data = 4 := by decide
    have e2 : digitsVal "2".data = 2 := by decide
    have ht : ttlIn winExample.data = false := by decide
    have ha : avgOf winExample.data = none := rfl
    simp [e4, e2, ht, ha]
    norm_num

/-- Witness for C3: the general derivation applied to the concrete
Windows-style input, with both pattern hypotheses evaluated by decide. -/
theorem C3_win_derived_loss_witness :
    ∃ r, ping_parse winExample.data = .ok r ∧ r.sent = some (digitsVal "4".data) ∧
      r.received = some (digitsVal "2".data) ∧
      r.loss_pct = (if digitsVal "4".data = 0 then none
        else some ((digitsVal "2".data : ℚ) / (digitsVal "4".data : ℚ) * 100)) :=
  C3_win_derived_loss.1 winExample.data "4".data "2".data "2".data (by decide) (by decide)

/-- C4 counterexample: the claim allows the ttl= fallback only when the
packet counters could not be parsed, but on `ce4Text` the counters parse
(sent 4, received 0) and the fallback still fires, so success is true where
the claim requires false. -/
theorem C4_success_flag_cex :
    ¬ (∀ (text : List Char) (r : PingFields), ping_parse text = .ok r →
        (r.success = true ↔
          ((∃ n, r.received = some n ∧ 0 < n) ∨
           (r.sent = none ∧ r.received = none ∧ ttlIn text = true)))) := by
  intro hclaim
  have hu : unixSearch ce4Text.data = some ("4".data, "0".data, "100".data) := by decide
  have hp := ping_parse_of_counters_some (countersOf_unix hu)
  have hiff := hclaim ce4Text.data _ hp
  have hsucc : (decide (0 < digitsVal "0".data) || ttlIn ce4Text.data) = true := by decide
  rcases hiff.mp hsucc with ⟨n, hn, hpos⟩ | ⟨hs, -, -⟩
  · rw [Option.some.injEq] at hn
    rw [← hn] at hpos
    exact absurd hpos (by decide)
  · exact Option.noConfusion hs

/-- C4 amended: the success flag is true iff the received count is a parsed
positive integer, or — whenever it is not (including when the counters
parsed with received = 0) — the lowercased raw text contains the literal
marker ttl=; the reply-only input of the claim parses with all numeric
fields unset and success true. -/
theorem C4_success_flag :
    (∀ (text : List Char) (r : PingFields), ping_parse text = .ok r →
      (r.success = true ↔
        ((∃ n, r.received = some n ∧ 0 < n) ∨ ttlIn text = true))) ∧
    ping_parse replyText.data = .ok
      { success := true, raw := replyText.data, sent := none, received := none,
        loss_pct := none, avg_rtt_ms := none } := by
  constructor
  · intro text r hp
    obtain ⟨o, ho⟩ := countersOf_ok text
    cases o with
    | none =>
      rw [ping_parse_of_counters_none ho] at hp
      cases hp
      simp
    | some c =>
      obtain ⟨s, rc, l⟩ := c
      rw [ping_parse_of_counters_some ho] at hp
      cases hp
      simp [Bool.or_eq_true, decide_eq_true_eq]
  · rfl

/-- Witness for C4: the amended success-flag rule instantiated at the
reply-only input, its parse hypothesis discharged by the concrete
evaluation. -/
theorem C4_success_flag_witness :
    (({ success := true, raw := replyText.data, sent := none, received := none,
        loss_pct := none, avg_rtt_ms := none } : PingFields).success = true ↔
      ((∃ n, ({ success := true, raw := replyText.data, sent := none, received := none,
                loss_pct := none, avg_rtt_ms := none } : PingFields).received = some n ∧
          0 < n) ∨ ttlIn replyText.data = true)) :=
  C4_success_flag.1 replyText.data _ C4_success_flag.2

/-- C5 counterexample: the Unix summary search carries `re.S` but not
`re.IGNORECASE`, so two inputs differing only in the letter case of the
summary line parse differently: the lowercase one extracts the counters,
the uppercase one leaves every field unset. -/
theorem C5_case_cex :
    lowerChars upperUnix.data = lowerChars lowerUnix.data ∧
    ping_parse lowerUnix.data = .ok
      { success := true, raw := lowerUnix.data, sent := some 4, received := some 4,
        loss_pct := some 0, avg_rtt_ms := none } ∧
    ping_parse upperUnix.data = .ok
      { success := false, raw := upperUnix.data, sent := none, received := none,
        loss_pct := none, avg_rtt_ms := none } := by
  refine ⟨by decide, ?_, rfl⟩
  have hu : unixSearch lowerUnix.data = some ("4".data, "4".data, "0".data) := by decide
  rw [ping_parse_of_counters_some (countersOf_unix hu)]
  have e4 : digitsVal "4".data = 4 := by decide
  have e0 : digitsVal "0".data = 0 := by decide
  have ht : ttlIn lowerUnix.data = false := by decide
  have ha : avgOf lowerUnix.data = none := rfl
  simp [e4, e0, ht, ha]

/-- C5 amended: the Unix-pattern match is tolerant of intervening text and
spans lines — any text ending in a tail matched by the pattern produces a
match — but it is case-sensitive: uppercasing the summary words of a
matching text (which leaves the lowercased text unchanged) loses the
match. -/
theorem C5_unix_match_tolerant_case_sensitive :
    (∀ (pre core : List Char) (g : List Char × List Char × List Char),
      unixSeg1 core = some g → (unixSearch (pre ++ core)).isSome = true) ∧
    unixSearch mixedUnix.data = some ("9".data, "7".data, "12".data) ∧
    lowerChars upperMixed.data = lowerChars mixedUnix.data ∧
    unixSearch upperMixed.data = none := by
  refine ⟨?_, by decide, by decide, by decide⟩
  intro pre core g h
  exact searchSeg_isSome_append h pre

/-- Witness for C5: the intervening-text tolerance applied to a concrete
prefix and matching core. -/
theorem C5_unix_match_tolerant_case_sensitive_witness :
    (unixSearch ("PING x\n".data ++ lowerUnix.data)).isSome = true :=
  C5_unix_match_tolerant_case_sensitive.1 "PING x\n".data lowerUnix.data
    ("4".data, "4".data, "0".data) (by decide)

/-- C6: serialization emits, for each record, exactly one row with empty
port columns when it has no requested ports, and exactly one row per
requested port otherwise, each row repeating the identical non-port fields
and carrying one port's result. -/
theorem C6_csv_fanout :
    (∀ rs : List DiagRecord, csv_rows rs = rs.flatMap rowsOfRecord) ∧
    (∀ r : DiagRecord, r.ports = [] → rowsOfRecord r = [baseRow r] ∧
      (baseRow r).port = none ∧ (baseRow r).port_open = none ∧
      (baseRow r).port_rtt_ms = none) ∧
    (∀ r : DiagRecord,
      (rowsOfRecord r).length = if r.ports.isEmpty then 1 else r.ports.length) ∧
    (∀ r : DiagRecord, ∀ row ∈ rowsOfRecord r, nonPortPart row = nonPortPart (baseRow r)) ∧
    (∀ r : DiagRecord, (rowsOfRecord r).map CsvRow.port =
      if r.ports.isEmpty then [none] else r.ports.map fun p => some p.port) := by
  refine ⟨fun rs => rfl, ?_, ?_, ?_, ?_⟩
  · intro r h
    exact ⟨by simp [rowsOfRecord, h], rfl, rfl, rfl⟩
  · intro r
    cases hp : r.ports with
    | nil => simp [rowsOfRecord, hp]
    | cons p ps => simp [rowsOfRecord, hp]
  · intro r row hrow
    cases hp : r.ports with
    | nil =>
      rw [rowsOfRecord, hp] at hrow
      simp only [List.mem_singleton] at hrow
      rw [hrow]
    | cons p ps =>
      rw [rowsOfRecord, hp] at hrow
      simp only [List.mem_map] at hrow
      obtain ⟨q, -, hq⟩ := hrow
      rw [← hq]
      rfl
  · intro r
    cases hp : r.ports with
    | nil => simp [rowsOfRecord, hp, baseRow]
    | cons p ps => simp [rowsOfRecord, hp, List.map_map, Function.comp]

/-- Witness for C6: a record with no ports emits exactly the single base row,
and a record with ports 22 and 443 emits exactly two rows carrying
`some 22` and `some 443` whose non-port columns equal the base row's. -/
theorem C6_csv_fanout_witness :
    rowsOfRecord recNoPorts = [baseRow recNoPorts] ∧
    (rowsOfRecord recTwoPorts).length = 2 ∧
    (rowsOfRecord recTwoPorts).map CsvRow.port = [some 22, some 443] ∧
    nonPortPart row22 = nonPortPart (baseRow recTwoPorts) := by
  refine ⟨(C6_csv_fanout.2.1 recNoPorts rfl).1, ?_, ?_, ?_⟩
  · have h := C6_csv_fanout.2.2.1 recTwoPorts
    rw [h]
    rfl
  · have h := C6_csv_fanout.2.2.2.2 recTwoPorts
    rw [h]
    rfl
  · exact C6_csv_fanout.2.2.2.1 recTwoPorts row22 (List.Mem.head _)

/-- C7: the stored traceroute text is verbatim when its length is at most
400 characters, and the first 400 characters followed by the truncation
marker when longer. -/
theorem C7_trace_truncation :
    ∀ raw : List Char,
      (raw.length ≤ 400 → truncTrace raw = raw) ∧
      (400 < raw.length → truncTrace raw = raw.take 400 ++ truncMarker) := by
  intro raw
  constructor
  · intro h
    unfold truncTrace
    rw [if_neg (by omega), List.append_nil, List.take_of_length_le h]
  · intro h
    unfold truncTrace
    rw [if_pos h]

/-- Witness for C7: text of length 400 is stored verbatim; text of length
401 is stored as its first 400 characters plus the marker. -/
theorem C7_trace_truncation_witness :
    truncTrace (List.replicate 400 'b') = List.replicate 400 'b' ∧
    truncTrace (List.replicate 401 'a') = (List.replicate 401 'a').take 400 ++ truncMarker :=
  ⟨(C7_trace_truncation _).1 (by rw [List.length_replicate]),
   (C7_trace_truncation _).2 (by rw [List.length_replicate]; omega)⟩

/-- C8 counterexample: with durationSeconds 0 the check-first while loop of
`monitor_hosts` fails its very first test (elapsed 0 is not below 0) and no
diagnostic-and-serialize cycle runs, against the claim that at least one
cycle always runs including durationSeconds 0. -/
theorem C8_zero_duration_cex : monitor_cycles [0] 0 = 0 := by
  simp [monitor_cycles, List.takeWhile]

/-- C8 amended: at least one cycle runs whenever the elapsed time observed
at the first loop check is below durationSeconds — in particular for every
positive duration when the first check observes elapsed 0 — while with
durationSeconds 0 no cycle runs. -/
theorem C8_first_cycle_runs :
    ∀ (e : ℚ) (es : List ℚ) (d : ℚ), e < d → 1 ≤ monitor_cycles (e :: es) d := by
  intro e es d h
  rw [monitor_cycles, List.takeWhile_cons, if_pos (decide_eq_true h)]
  exact Nat.succ_le_succ (Nat.zero_le _)

/-- Witness for C8: a first check observing elapsed 0 against a duration of
30 seconds runs at least one cycle. -/
theorem C8_first_cycle_runs_witness : 1 ≤ monitor_cycles [(0 : ℚ)] 30 :=
  C8_first_cycle_runs 0 [] 30 (by norm_num)

/-- C9 counterexample: on the Windows path the loss is derived from the
captured Lost count; on `text9` (Sent 4, Received 2, Lost 1) the stored loss
25 is not consistent with (sent - received) / sent * 100 = 50. -/
theorem C9_loss_consistency_cex :
    ping_parse text9.data = .ok
      { success := true, raw := text9.data, sent := some 4, received := some 2,
        loss_pct := some 25, avg_rtt_ms := none } ∧
    ¬ ((25 : ℚ) = ((4 : ℚ) - 2) / 4 * 100) := by
  constructor
  · have hu : unixSearch text9.data = none := by decide
    have hw : winSearch text9.data = some ("4".data, "2".data, "1".data) := by decide
    rw [ping_parse_of_counters_some (countersOf_win hu hw)]
    have e4 : digitsVal "4".data = 4 := by decide
    have e2 : digitsVal "2".data = 2 := by decide
    have e1 : digitsVal "1".data = 1 := by decide
    have ht : ttlIn text9.data = false := by decide
    have ha : avgOf text9.data = none := rfl
    simp [e4, e2, e1, ht, ha]
    norm_num
  · norm_num

/-- C9 amended: the Windows-path loss is lost / sent * 100 for the captured
Lost count, so it is consistent with (sent - received) / sent * 100 exactly
when the counters satisfy lost = sent - received; the Unix-path loss is
taken verbatim from the pattern's third group; and the two paths are
mutually exclusive — the Windows derivation applies only when the Unix
pattern did not match. -/
theorem C9_loss_consistency :
    (∀ (text g1 g2 g3 : List Char), unixSearch text = none →
      winSearch text = some (g1, g2, g3) →
      digitsVal g2 ≤ digitsVal g1 → digitsVal g3 = digitsVal g1 - digitsVal g2 →
      0 < digitsVal g1 →
      ∃ r, ping_parse text = .ok r ∧
        r.loss_pct = some (((digitsVal g1 : ℚ) - (digitsVal g2 : ℚ)) /
          (digitsVal g1 : ℚ) * 100)) ∧
    (∀ (text g1 g2 g3 : List Char), unixSearch text = some (g1, g2, g3) →
      ∃ r, ping_parse text = .ok r ∧ r.loss_pct = some ((digitsVal g3 : ℚ))) := by
  constructor
  · intro text g1 g2 g3 hu hw hle hlost h0
    refine ⟨_, ping_parse_of_counters_some (countersOf_win hu hw), ?_⟩
    show (if digitsVal g1 = 0 then none
      else some ((digitsVal g3 : ℚ) / (digitsVal g1 : ℚ) * 100)) = _
    rw [if_neg (Nat.pos_iff_ne_zero.mp h0), hlost, Nat.cast_sub hle]
  · intro text g1 g2 g3 h
    exact ⟨_, ping_parse_of_counters_some (countersOf_unix h), rfl⟩

/-- Witness for C9: the consistency of the derived loss at the concrete
Windows-style input, whose counters satisfy lost = sent - received. -/
theorem C9_loss_consistency_witness :
    ∃ r, ping_parse winExample.data = .ok r ∧
      r.loss_pct = some (((digitsVal "4".data : ℚ) - (digitsVal "2".data : ℚ)) /
        (digitsVal "4".data : ℚ) * 100) :=
  C9_loss_consistency.1 winExample.data "4".data "2".data "2".data
    (by decide) (by decide) (by decide) (by decide) (by decide)

/-- C10: whenever the process wrapper reports a launch failure, `ping_host`
returns at once with every numeric field unset and success false, without
applying any pattern to the wrapper's error text — even when that text
contains the ttl= marker. -/
theorem C10_launch_failure_early_return :
    (∀ (isWindows : Bool) (out : List Char), ping_host isWindows false out = .ok
      { success := false, raw := out, sent := none, received := none,
        loss_pct := none, avg_rtt_ms := none }) ∧
    ttlIn errText.data = true ∧
    ping_host false false errText.data = .ok
      { success := false, raw := errText.data, sent := none, received := none,
        loss_pct := none, avg_rtt_ms := none } :=
  ⟨fun _ _ => rfl, by decide, rfl⟩
